import Mathlib

/-!
Verification of the damage-tracked output renderer
(`src/backend/renderer/damage.rs`).

The development shallowly embeds `damage_output_internal`, `damage_output`
and `render_output` of `DamageTrackedRenderer`.  Rectangle algebra
(`utils/geometry.rs`) and the per-element result types
(`renderer/element.rs`) are not part of the provided sources and are
modelled from the specification where noted.  Coordinates are `Int`
(the source uses `i32`; no claim depends on wrap-around), z-indices and
element ids are `Nat` (`usize`), and the per-call scale is left implicit:
`geometry`, `opaque_regions` and `damage_since` are taken already sampled
at the call's scale, exactly as `damage_output_internal` samples them.
-/

namespace DamageTrack

/-- A point in physical-pixel coordinates (`Point<i32, Physical>`). -/
structure Pt where
  x : Int
  y : Int
deriving DecidableEq

/-- A size in physical pixels (`Size<i32, Physical>`). -/
structure Sz where
  w : Int
  h : Int
deriving DecidableEq

/-- An axis-aligned rectangle (`Rectangle<i32, Physical>`), origin
top-left, inclusive-exclusive. -/
structure Rect where
  loc : Pt
  size : Sz
deriving DecidableEq

/-- Modelled from the spec: a rectangle is empty when it covers no pixels
(the coordinate space is inclusive-exclusive). -/
def Rect.isEmptyRect (r : Rect) : Bool :=
  r.size.w ≤ 0 || r.size.h ≤ 0

/-- Modelled from the spec: two rectangles overlap when they share at
least one pixel of the inclusive-exclusive grid. -/
def Rect.overlaps (a b : Rect) : Bool :=
  a.loc.x < b.loc.x + b.size.w && b.loc.x < a.loc.x + a.size.w &&
  a.loc.y < b.loc.y + b.size.h && b.loc.y < a.loc.y + a.size.h

/-- Modelled from the spec: intersection of two rectangles, `none` when
they do not overlap. -/
def Rect.intersection (a b : Rect) : Option Rect :=
  if a.overlaps b then
    some ⟨⟨max a.loc.x b.loc.x, max a.loc.y b.loc.y⟩,
          ⟨min (a.loc.x + a.size.w) (b.loc.x + b.size.w) - max a.loc.x b.loc.x,
           min (a.loc.y + a.size.h) (b.loc.y + b.size.h) - max a.loc.y b.loc.y⟩⟩
  else
    none

/-- Modelled from the spec: `merge` is the axis-aligned bounding union of
two rectangles. -/
def Rect.merge (a b : Rect) : Rect :=
  ⟨⟨min a.loc.x b.loc.x, min a.loc.y b.loc.y⟩,
   ⟨max (a.loc.x + a.size.w) (b.loc.x + b.size.w) - min a.loc.x b.loc.x,
    max (a.loc.y + a.size.h) (b.loc.y + b.size.h) - min a.loc.y b.loc.y⟩⟩

/-- Modelled from the spec: rectangle subtraction, yielding 0–4 disjoint
pieces of `a` not covered by `b` (top and bottom strips across the full
width of `a`, left and right strips beside the clipped hole). -/
def Rect.subtract_rect (a b : Rect) : List Rect :=
  match a.intersection b with
  | none => [a]
  | some i =>
    ([⟨⟨a.loc.x, a.loc.y⟩, ⟨a.size.w, i.loc.y - a.loc.y⟩⟩,
      ⟨⟨a.loc.x, i.loc.y + i.size.h⟩,
       ⟨a.size.w, a.loc.y + a.size.h - (i.loc.y + i.size.h)⟩⟩,
      ⟨⟨a.loc.x, i.loc.y⟩, ⟨i.loc.x - a.loc.x, i.size.h⟩⟩,
      ⟨⟨i.loc.x + i.size.w, i.loc.y⟩,
       ⟨a.loc.x + a.size.w - (i.loc.x + i.size.w), i.size.h⟩⟩] :
      List Rect).filter (fun r => !(r.isEmptyRect))

/-- Pixel membership in a rectangle. -/
def Rect.containsPt (r : Rect) (p : Pt) : Bool :=
  r.loc.x ≤ p.x && p.x < r.loc.x + r.size.w &&
  r.loc.y ≤ p.y && p.y < r.loc.y + r.size.h

/-- `r` lies (as a pixel set, coordinate-wise) within `g`. -/
def Rect.within (r g : Rect) : Prop :=
  g.loc.x ≤ r.loc.x ∧ g.loc.y ≤ r.loc.y ∧
  r.loc.x + r.size.w ≤ g.loc.x + g.size.w ∧
  r.loc.y + r.size.h ≤ g.loc.y + g.size.h

/-- Concatenation of the images of `f`: the embedding of the source's
`flat_map` loops. -/
def listJoinMap {α β : Type} (f : α → List β) : List α → List β
  | [] => []
  | a :: t => f a ++ listJoinMap f t

/-- Flattening a list of rectangle lists (`iter().flatten()`). -/
def joinAll (l : List (List Rect)) : List Rect :=
  listJoinMap (fun x => x) l

/-- A pixel is covered by some rectangle of the list. -/
def coveredB (l : List Rect) (p : Pt) : Bool :=
  l.any (fun r => r.containsPt p)

/-- Lookup in an insertion-ordered association list; the embedding of
`IndexMap::get` / `HashMap::get`. -/
def lookupMap {α : Type} : List (Nat × α) → Nat → Option α
  | [], _ => none
  | (k, v) :: t, i => if k = i then some v else lookupMap t i

/-- Insert/update in an insertion-ordered association list: an existing
key is updated in place, a new key is appended at the end.  This is the
embedding of `IndexMap::insert` / `HashMap::insert` (iteration order of
the `IndexMap` is insertion order, which the analysis relies on). -/
def insertMap {α : Type} : List (Nat × α) → Nat → α → List (Nat × α)
  | [], i, v => [(i, v)]
  | (k, w) :: t, i, v => if k = i then (i, v) :: t else (k, w) :: insertMap t i v

/-- `ElementInstanceState` (damage.rs lines 180-184). -/
structure ElementInstanceState where
  last_geometry : Rect
  last_z_index : Nat
deriving DecidableEq

/-- `ElementState` (damage.rs lines 192-196); the commit counter is a
`Nat`. -/
structure ElementState where
  last_commit : Nat
  last_instances : List ElementInstanceState
deriving DecidableEq

/-- `ElementInstanceState::matches` (damage.rs lines 186-190) folded into
`ElementState::instance_matches` (lines 198-204). -/
def instanceMatches (st : ElementState) (geometry : Rect) (z : Nat) : Bool :=
  st.last_instances.any
    (fun i => i.last_geometry = geometry && i.last_z_index = z)

/-- `RendererState` (damage.rs lines 206-211): `old_damage` is a deque
whose head is the most recent frame's damage. -/
structure RendererState where
  size : Option Sz
  elements : List (Nat × ElementState)
  old_damage : List (List Rect)
deriving DecidableEq

/-- `RendererState::default()`: the state after construction and after a
rendering error. -/
def RendererState.default : RendererState :=
  ⟨none, [], []⟩

/-- A render element, sampled at the call's scale: the `Element` trait
capabilities used by `damage_output_internal`.  Modelled from the spec
for the trait itself (renderer/element.rs is not in the provided
sources); `damage_since` takes the previously recorded commit, or `none`
when the tracker has no record for the id. -/
structure Element where
  id : Nat
  geometry : Rect
  current_commit : Nat
  damage_since : Option Nat → List Rect
  opaque_regions : List Rect

/-- Modelled from the spec: the presentation half of
`RenderElementState`. -/
inductive PresentationState where
  | skipped
  | rendered
deriving DecidableEq

/-- Modelled from the spec: `RenderElementState`, a presentation state
plus the accumulated visible area. -/
structure RenderElementState where
  presentation_state : PresentationState
  visible_area : Int
deriving DecidableEq

/-- `RenderElementState::skipped()`. -/
def RenderElementState.skippedState : RenderElementState :=
  ⟨.skipped, 0⟩

/-- `RenderElementState::rendered(area)`. -/
def RenderElementState.renderedState (area : Int) : RenderElementState :=
  ⟨.rendered, area⟩

/-- Translate rectangles by `loc` (element-local to output coordinates)
and clip each to `out_geo`, dropping out-of-output rectangles: the
`map`/`filter_map(intersection)` chains of damage.rs lines 545-556 and
559-567. -/
def translateClip (loc : Pt) (out_geo : Rect) (l : List Rect) : List Rect :=
  (l.map (fun d => { d with loc := ⟨d.loc.x + loc.x, d.loc.y + loc.y⟩ })).filterMap
    (fun g => g.intersection out_geo)

/-- The element's `damage_since` output, translated to output coordinates
and clipped (damage.rs lines 545-557): the commit passed to the element
is the recorded one for its id, if any. -/
def elementClippedDamage (m : List (Nat × ElementState)) (out_geo : Rect)
    (e : Element) : List Rect :=
  translateClip e.geometry.loc out_geo
    (e.damage_since ((lookupMap m e.id).map (fun s => s.last_commit)))

/-- The element's opaque regions, translated and clipped
(damage.rs lines 559-567). -/
def elementClippedOpaque (out_geo : Rect) (e : Element) : List Rect :=
  translateClip e.geometry.loc out_geo e.opaque_regions

/-- Fold rectangle subtraction of every region over a damage list: the
`fold(init, |damage, region| damage.flat_map(subtract_rect))` pattern
used throughout damage.rs. -/
def subtractAll (init : List Rect) (regions : List Rect) : List Rect :=
  regions.foldl (fun dmg r => listJoinMap (fun d => d.subtract_rect r) dmg) init

/-- `element_visible_area` (damage.rs lines 520-531): subtract every
already-accumulated opaque region from the clipped geometry and sum the
areas of the survivors. -/
def visibleArea (opq : List (Nat × List Rect)) (clipped : Rect) : Int :=
  (subtractAll [clipped] (listJoinMap (fun q => q.2) opq)).foldl
    (fun acc r => acc + r.size.w * r.size.h) 0

/-- Accumulator of the per-element loop of `damage_output_internal`
(damage.rs lines 501-584): the accumulated damage, the retained render
elements, their opaque regions tagged with z-index, the per-frame report,
and the explicit z-index counter. -/
structure ScanAcc where
  damage : List Rect
  render_elements : List Element
  opaque_acc : List (Nat × List Rect)
  states : List (Nat × RenderElementState)
  z : Nat

/-- Phase A: the per-element loop of `damage_output_internal`
(damage.rs lines 508-584).  An element that does not intersect the
output is skipped silently; a fully occluded element records `Skipped`
(unless its id already has an entry); a visible element contributes its
clipped damage, pushes its opaque regions under the current z-index, is
retained, and records/accumulates a `Rendered` state. -/
def scanElements (m : List (Nat × ElementState)) (out_geo : Rect) :
    List Element → ScanAcc → ScanAcc
  | [], acc => acc
  | e :: rest, acc =>
    match e.geometry.intersection out_geo with
    | none => scanElements m out_geo rest acc
    | some clipped =>
      let va := visibleArea acc.opaque_acc clipped
      if va = 0 then
        scanElements m out_geo rest
          { acc with
            states :=
              if (lookupMap acc.states e.id).isSome then acc.states
              else insertMap acc.states e.id RenderElementState.skippedState }
      else
        scanElements m out_geo rest
          { damage := acc.damage ++ elementClippedDamage m out_geo e
            render_elements := acc.render_elements ++ [e]
            opaque_acc := acc.opaque_acc ++ [(acc.z, elementClippedOpaque out_geo e)]
            states :=
              match lookupMap acc.states e.id with
              | some st =>
                if st.presentation_state = .skipped then
                  insertMap acc.states e.id (RenderElementState.renderedState va)
                else
                  insertMap acc.states e.id ⟨st.presentation_state, st.visible_area + va⟩
              | none => insertMap acc.states e.id (RenderElementState.renderedState va)
            z := acc.z + 1 }

/-- Phase A started from the empty accumulator. -/
def sceneScan (m : List (Nat × ElementState)) (out_geo : Rect)
    (elems : List Element) : ScanAcc :=
  scanElements m out_geo elems ⟨[], [], [], [], 0⟩

/-- The opaque regions whose z-index is strictly in front of `z`
(`filter(|(index, _)| *index < z_index)` + flatten). -/
def frontRegions (opq : List (Nat × List Rect)) (z : Nat) : List Rect :=
  listJoinMap (fun q => q.2) (opq.filter (fun q => q.1 < z))

/-- Phase B: damage for ids recorded in the previous state that are
absent from the retained render elements (damage.rs lines 586-612).
Note the filter on opaque regions: a region is used when its z-index is
in front of the `last_z_index` of ANY prior instance of the id, and it
is then subtracted from the geometries of ALL the id's instances. -/
def elementsGone (m : List (Nat × ElementState)) (res : List Element)
    (opq : List (Nat × List Rect)) : List Rect :=
  listJoinMap
    (fun pr =>
      subtractAll (pr.2.last_instances.map (fun i => i.last_geometry))
        (listJoinMap (fun q => q.2)
          (opq.filter
            (fun q => pr.2.last_instances.any (fun i => q.1 < i.last_z_index)))))
    (m.filter (fun pr => !(res.any (fun e => e.id = pr.1))))

/-- Phase C: damage for moved or reordered elements (damage.rs lines
614-640), iterating the retained render elements with their z-index.  If
no recorded instance of the id matches both geometry and z-index, the new
geometry and every recorded instance geometry are damaged, minus the
opaque regions in front of the new z-index. -/
def movedAux (m : List (Nat × ElementState)) (opq : List (Nat × List Rect)) :
    Nat → List Element → List Rect
  | _, [] => []
  | z, e :: rest =>
    (match lookupMap m e.id with
     | some st =>
       if instanceMatches st e.geometry z then []
       else
         subtractAll (e.geometry :: st.last_instances.map (fun i => i.last_geometry))
           (frontRegions opq z)
     | none => subtractAll [e.geometry] (frontRegions opq z)) ++
    movedAux m opq (z + 1) rest

/-- Phase C over the whole retained list. -/
def movedDamage (m : List (Nat × ElementState)) (res : List Element)
    (opq : List (Nat × List Rect)) : List Rect :=
  movedAux m opq 0 res

/-- Phases A-D: the frame's own new damage (`new_damage` snapshot of
damage.rs line 654): per-element damage, gone elements, moved elements,
all replaced by the whole output when the recorded size differs from the
current output size (damage.rs lines 642-651). -/
def analysis_new_damage (s : RendererState) (elems : List Element)
    (out_geo : Rect) : List Rect :=
  let scan := sceneScan s.elements out_geo elems
  let d := scan.damage ++
    elementsGone s.elements scan.render_elements scan.opaque_acc ++
    movedDamage s.elements scan.render_elements scan.opaque_acc
  if s.size = some out_geo.size then d else [out_geo]

/-- Phase F, state side: `old_damage` after the call.  When `age > 0` and
enough history is stored it is truncated to `age` entries — note that this
truncation persists even when the call ends up reporting no damage
(damage.rs line 660 mutates the state before the early return). -/
def analysisOldAfter (s : RendererState) (age : Nat) : List (List Rect) :=
  if 0 < age ∧ age ≤ s.old_damage.length then s.old_damage.take age
  else s.old_damage

/-- Phase F, damage side (damage.rs lines 656-671): with a usable age the
stored damage of the `age` most recent frames (including the most recent)
is appended; otherwise the whole output is damaged. -/
def analysisFinalInput (s : RendererState) (age : Nat) (elems : List Element)
    (out_geo : Rect) : List Rect :=
  if 0 < age ∧ age ≤ s.old_damage.length then
    analysis_new_damage s elems out_geo ++ joinAll (s.old_damage.take age)
  else [out_geo]

/-- `Vec::dedup`: remove consecutive duplicates (damage.rs line 674),
keeping one representative of each run of equal rectangles. -/
def dedupConsec : List Rect → List Rect
  | [] => []
  | [a] => [a]
  | a :: b :: t => if a = b then dedupConsec (b :: t) else a :: dedupConsec (b :: t)

/-- One step of the single-pass merge (damage.rs lines 681-690): the new
rectangle absorbs the accumulated rectangles overlapping it and is
appended after the rest; the enlarged rectangle is not re-tested against
the kept ones. -/
def mergeStep (acc : List Rect) (r : Rect) : List Rect :=
  acc.filter (fun o => !(o.overlaps r)) ++
  [(acc.filter (fun o => o.overlaps r)).foldl Rect.merge r]

/-- The single-pass merge of damage.rs lines 678-691. -/
def mergeFold (l : List Rect) : List Rect :=
  l.foldl mergeStep []

/-- Phase G (damage.rs lines 673-691): dedup, drop rectangles that do not
overlap the output or are empty, clip to the output, merge. -/
def canonicalize (out_geo : Rect) (l : List Rect) : List Rect :=
  mergeFold
    ((((dedupConsec l).filter (fun r => r.overlaps out_geo)).filter
        (fun r => !(r.isEmptyRect))).filterMap (fun r => r.intersection out_geo))

/-- Phase G applied to the phase F result. -/
def finalDamage (s : RendererState) (age : Nat) (elems : List Element)
    (out_geo : Rect) : List Rect :=
  canonicalize out_geo (analysisFinalInput s age elems out_geo)

/-- Phase H, element side (damage.rs lines 700-727): rebuild the element
map from the retained render elements in order, grouping repeated ids
into multi-instance entries; a new id records the element's
`current_commit`. -/
def rebuildAux (map : List (Nat × ElementState)) (z : Nat) :
    List Element → List (Nat × ElementState)
  | [] => map
  | e :: rest =>
    rebuildAux
      (match lookupMap map e.id with
       | some st =>
         insertMap map e.id
           ⟨st.last_commit, st.last_instances ++ [⟨e.geometry, z⟩]⟩
       | none => insertMap map e.id ⟨e.current_commit, [⟨e.geometry, z⟩]⟩)
      (z + 1) rest

/-- Phase H element map from z-index 0. -/
def rebuildElements (res : List Element) : List (Nat × ElementState) :=
  rebuildAux [] 0 res

/-- Result of `damage_output_internal`: the canonical damage (empty means
no damage), the per-element report, the updated tracker state, and the
retained render elements with their opaque regions (consumed by
`render_output`). -/
structure AnalysisOut where
  damage : List Rect
  states : List (Nat × RenderElementState)
  state : RendererState
  render_elements : List Element
  opaque_acc : List (Nat × List Rect)

/-- `damage_output_internal` (damage.rs lines 487-734).  When the
canonical damage is empty the function returns early (lines 693-696):
`size` and `elements` are left unchanged and nothing is pushed onto
`old_damage` (which has however already been truncated by phase F).
Otherwise the state is fully updated (lines 729-731). -/
def damage_output_internal (s : RendererState) (age : Nat)
    (elems : List Element) (out_geo : Rect) : AnalysisOut :=
  let scan := sceneScan s.elements out_geo elems
  let final := finalDamage s age elems out_geo
  if final = [] then
    ⟨final, scan.states, ⟨s.size, s.elements, analysisOldAfter s age⟩,
     scan.render_elements, scan.opaque_acc⟩
  else
    ⟨final, scan.states,
     ⟨some out_geo.size, rebuildElements scan.render_elements,
      analysis_new_damage s elems out_geo :: analysisOldAfter s age⟩,
     scan.render_elements, scan.opaque_acc⟩

/-- `DamageTrackedRenderer::damage_output` (damage.rs lines 446-484):
pure analysis; `none` damage exactly when the canonical damage is empty.
Returns (damage, report, new state). -/
def damage_output (s : RendererState) (age : Nat) (elems : List Element)
    (out_geo : Rect) :
    Option (List Rect) × List (Nat × RenderElementState) × RendererState :=
  let a := damage_output_internal s age elems out_geo
  (if a.damage = [] then none else some a.damage, a.states, a.state)

/-- A call into the render backend, recorded in order. -/
inductive BackendCall where
  | openFrame
  | clear (rects : List Rect)
  | draw (id : Nat) (dmg : List Rect)
deriving DecidableEq

/-- The backend borrowed by `render_output`, as failure oracles for the
three fallible operations (opening the frame, clearing, drawing an
element). -/
structure Backend where
  frame_ok : Bool
  clear_ok : List Rect → Bool
  draw_ok : Nat → List Rect → Bool

/-- Result of `render_output`: damage and report on success, or a
`Rendering` backend error. -/
inductive RenderResult where
  | ok (damage : Option (List Rect)) (states : List (Nat × RenderElementState))
  | renderingError
deriving DecidableEq

/-- True exactly for a successful result reporting `None` damage. -/
def RenderResult.isNoDamage : RenderResult → Bool
  | .ok none _ => true
  | _ => false

/-- The per-element damage handed to `draw` (damage.rs lines 388-410):
the frame damage clipped to the element, minus the opaque regions in
front of its z-index, translated to element-local coordinates. -/
def elementDamage (damage : List Rect) (opq : List (Nat × List Rect))
    (z : Nat) (geometry : Rect) : List Rect :=
  (subtractAll (damage.filterMap (fun d => d.intersection geometry))
      (frontRegions opq z)).map
    (fun d => { d with loc := ⟨d.loc.x - geometry.loc.x, d.loc.y - geometry.loc.y⟩ })

/-- The element pass of `render_output` (damage.rs lines 379-431):
back-to-front over the reversed retained list, keeping the scene-order
z-index; elements with empty damage are skipped without a backend call;
a draw failure aborts. -/
def drawLoop (b : Backend) (damage : List Rect) (opq : List (Nat × List Rect)) :
    List (Nat × Element) → List BackendCall → Bool × List BackendCall
  | [], calls => (true, calls)
  | (z, e) :: rest, calls =>
    let ed := elementDamage damage opq z e.geometry
    if ed = [] then drawLoop b damage opq rest calls
    else if b.draw_ok e.id ed then
      drawLoop b damage opq rest (calls ++ [.draw e.id ed])
    else (false, calls ++ [.draw e.id ed])

/-- Enumerate a list with indices starting at `n`. -/
def enumFrom {α : Type} : Nat → List α → List (Nat × α)
  | _, [] => []
  | n, a :: t => (n, a) :: enumFrom (n + 1) t

/-- The clear-pass damage (damage.rs lines 366-374): the frame damage
minus every opaque region of every retained element. -/
def clearDamageOf (a : AnalysisOut) : List Rect :=
  subtractAll a.damage (listJoinMap (fun q => q.2) a.opaque_acc)

/-- The whole element pass, run after the frame was opened and cleared. -/
def paintResult (b : Backend) (a : AnalysisOut) : Bool × List BackendCall :=
  drawLoop b a.damage a.opaque_acc (enumFrom 0 a.render_elements).reverse
    [.openFrame, .clear (clearDamageOf a)]

/-- `DamageTrackedRenderer::render_output` (damage.rs lines 315-444):
analysis, then — only when there is damage — open a frame, clear the
damage minus all opaque regions, and draw each element back to front on
its damage.  On any backend error the tracker state is reset to its
default (lines 436-441).  Returns (result, new state, backend calls made
in order). -/
def render_output (b : Backend) (s : RendererState) (age : Nat)
    (elems : List Element) (out_geo : Rect) :
    RenderResult × RendererState × List BackendCall :=
  let a := damage_output_internal s age elems out_geo
  if a.damage = [] then (.ok none a.states, a.state, [])
  else if !b.frame_ok then (.renderingError, RendererState.default, [.openFrame])
  else if !(b.clear_ok (clearDamageOf a)) then
    (.renderingError, RendererState.default, [.openFrame, .clear (clearDamageOf a)])
  else if (paintResult b a).1 then
    (.ok (some a.damage) a.states, a.state, (paintResult b a).2)
  else (.renderingError, RendererState.default, (paintResult b a).2)

/-- Phase B as the spec's claim words it (for the refinement comparison
with `elementsGone`): for each prior instance separately, its
`last_geometry` minus exactly those opaque regions whose z-index is in
front of THAT instance's `last_z_index`. -/
def elementsGoneSpec (m : List (Nat × ElementState)) (res : List Element)
    (opq : List (Nat × List Rect)) : List Rect :=
  listJoinMap
    (fun pr =>
      listJoinMap
        (fun inst =>
          subtractAll [inst.last_geometry]
            (listJoinMap (fun q => q.2)
              (opq.filter (fun q => q.1 < inst.last_z_index))))
        pr.2.last_instances)
    (m.filter (fun pr => !(res.any (fun e => e.id = pr.1))))

/-- The largest recorded z-index among an id's prior instances. -/
def maxLastZ (l : List ElementInstanceState) : Nat :=
  l.foldl (fun acc i => max acc i.last_z_index) 0

/-- Phase B with its opaque-region filter written through `maxLastZ`: a
region is kept exactly when it is in front of the id's rearmost (largest)
recorded z-index, and it is then subtracted from every instance's
geometry. -/
def elementsGoneShared (m : List (Nat × ElementState)) (res : List Element)
    (opq : List (Nat × List Rect)) : List Rect :=
  listJoinMap
    (fun pr =>
      subtractAll (pr.2.last_instances.map (fun i => i.last_geometry))
        (listJoinMap (fun q => q.2)
          (opq.filter (fun q => q.1 < maxLastZ pr.2.last_instances))))
    (m.filter (fun pr => !(res.any (fun e => e.id = pr.1))))

/-- The 800x600 output rectangle of the spec's end-to-end scenarios. -/
def outG : Rect :=
  ⟨⟨0, 0⟩, ⟨800, 600⟩⟩

/-- A 4x4 geometry at the origin, used by concrete scenarios. -/
def geoB2 : Rect :=
  ⟨⟨0, 0⟩, ⟨4, 4⟩⟩

/-- An unchanged, fully opaque element with id 0 at `geoB2`. -/
def elemB2 : Element :=
  ⟨0, geoB2, 5, fun _ => [], [geoB2]⟩

/-- A tracker state recording `elemB2` (id 0, z-index 0) plus a second id
1 behind it (z-index 1) under the same geometry, with one stored frame of
empty damage. -/
def stateC2 : RendererState :=
  ⟨some ⟨800, 600⟩, [(0, ⟨5, [⟨geoB2, 0⟩]⟩), (1, ⟨3, [⟨geoB2, 1⟩]⟩)], [[]]⟩

/-- A backend whose frame cannot be opened. -/
def failingBackend : Backend :=
  ⟨false, fun _ => true, fun _ _ => true⟩

/-- A backend that accepts everything. -/
def okBackend : Backend :=
  ⟨true, fun _ => true, fun _ _ => true⟩

/-- An element lying completely outside the 800x600 output. -/
def outsideElem : Element :=
  ⟨3, ⟨⟨1000, 1000⟩, ⟨5, 5⟩⟩, 0, fun _ => [], []⟩

/-- The 5x5 output used by the merge counterexample. -/
def outG5 : Rect :=
  ⟨⟨0, 0⟩, ⟨5, 5⟩⟩

/-- A thin full-height column at the left of the 5x5 output. -/
def rectTall : Rect :=
  ⟨⟨0, 0⟩, ⟨1, 5⟩⟩

/-- A lone 1x1 rectangle in the middle of the 5x5 output. -/
def rectSmall : Rect :=
  ⟨⟨2, 2⟩, ⟨1, 1⟩⟩

/-- A thin full-width row at the top of the 5x5 output. -/
def rectRow : Rect :=
  ⟨⟨0, 0⟩, ⟨5, 1⟩⟩

/-- An unchanged-position element whose content damage this frame is the
column, the lone square, and the row. -/
def elemC4 : Element :=
  ⟨4, ⟨⟨0, 0⟩, ⟨5, 5⟩⟩, 7,
   fun c => if c = some 7 then [rectTall, rectSmall, rectRow] else [], []⟩

/-- The tracker state recording `elemC4` at z-index 0 with one stored
frame of empty damage. -/
def stateC4 : RendererState :=
  ⟨some ⟨5, 5⟩, [(4, ⟨7, [⟨⟨⟨0, 0⟩, ⟨5, 5⟩⟩, 0⟩]⟩)], [[]]⟩

/-- A fully opaque element with id 0 in front (scene order first). -/
def frontElem : Element :=
  ⟨0, ⟨⟨100, 100⟩, ⟨10, 10⟩⟩, 1, fun _ => [⟨⟨0, 0⟩, ⟨10, 10⟩⟩],
   [⟨⟨0, 0⟩, ⟨10, 10⟩⟩]⟩

/-- An element with id 1 behind `frontElem` under the same geometry. -/
def backElem : Element :=
  ⟨1, ⟨⟨100, 100⟩, ⟨10, 10⟩⟩, 1, fun _ => [⟨⟨0, 0⟩, ⟨10, 10⟩⟩], []⟩

/-- A second 4x4 geometry, disjoint from `geoB2`. -/
def goneRect2 : Rect :=
  ⟨⟨10, 0⟩, ⟨4, 4⟩⟩

/-- A prior state for id 7 with two instances: one at z-index 0 under
`geoB2` and one at z-index 5 under `goneRect2`. -/
def goneMap : List (Nat × ElementState) :=
  [(7, ⟨0, [⟨geoB2, 0⟩, ⟨goneRect2, 5⟩]⟩)]

/-- A single opaque region at z-index 2 covering `geoB2`. -/
def goneOpq : List (Nat × List Rect) :=
  [(2, [geoB2])]

/-- The 10x10 output used by the buffer-age counterexample. -/
def outG1 : Rect :=
  ⟨⟨0, 0⟩, ⟨10, 10⟩⟩

/-- A state whose single stored damage rectangle sticks out to the left
of the 10x10 output. -/
def stateC8 : RendererState :=
  ⟨some ⟨10, 10⟩, [], [[⟨⟨-5, 0⟩, ⟨10, 10⟩⟩]]⟩

/-- A state whose single stored damage rectangle is the whole 10x10
output. -/
def stateC8b : RendererState :=
  ⟨some ⟨10, 10⟩, [], [[outG1]]⟩

lemma overlaps_iff {a b : Rect} :
    a.overlaps b = true ↔
      (a.loc.x < b.loc.x + b.size.w ∧ b.loc.x < a.loc.x + a.size.w ∧
       a.loc.y < b.loc.y + b.size.h ∧ b.loc.y < a.loc.y + a.size.h) := by
  simp [Rect.overlaps, and_assoc]

lemma intersection_self {g : Rect} (hw : 0 < g.size.w) (hh : 0 < g.size.h) :
    g.intersection g = some g := by
  obtain ⟨⟨x, y⟩, ⟨w, h⟩⟩ := g
  dsimp only at hw hh
  simp only [Rect.intersection]
  rw [if_pos]
  · simp [max_self, min_self, Rect.mk.injEq, Pt.mk.injEq, Sz.mk.injEq]
  · rw [overlaps_iff]
    dsimp only
    omega

lemma isEmptyRect_false {g : Rect} (hw : 0 < g.size.w) (hh : 0 < g.size.h) :
    g.isEmptyRect = false := by
  simp [Rect.isEmptyRect]
  omega

lemma overlaps_self {g : Rect} (hw : 0 < g.size.w) (hh : 0 < g.size.h) :
    g.overlaps g = true := by
  rw [overlaps_iff]
  omega

lemma canonicalize_single {g : Rect} (hw : 0 < g.size.w) (hh : 0 < g.size.h) :
    canonicalize g [g] = [g] := by
  simp [canonicalize, dedupConsec, overlaps_self hw hh, isEmptyRect_false hw hh,
    intersection_self hw hh, mergeFold, mergeStep]

lemma listJoinMap_congr {α β : Type} {f g : α → List β} :
    ∀ {l : List α}, (∀ x ∈ l, f x = g x) → listJoinMap f l = listJoinMap g l
  | [], _ => rfl
  | a :: t, h => by
    simp only [listJoinMap]
    rw [h a (by simp), listJoinMap_congr (fun x hx => h x (by simp [hx]))]

lemma any_lt_maxLastZ (l : List ElementInstanceState) (z : Nat) :
    l.any (fun i => z < i.last_z_index) = decide (z < maxLastZ l) := by
  suffices h : ∀ a : Nat,
      (decide (z < a) || l.any (fun i => z < i.last_z_index)) =
        decide (z < l.foldl (fun acc i => max acc i.last_z_index) a) by
    have h0 := h 0
    simp only [maxLastZ]
    rw [← h0]
    simp
  intro a
  induction l generalizing a with
  | nil => simp
  | cons i t ih =>
    simp only [List.any_cons, List.foldl_cons]
    rw [← ih (max a i.last_z_index)]
    have hx : decide (z < max a i.last_z_index) =
        (decide (z < a) || decide (z < i.last_z_index)) := by
      by_cases h1 : z < a <;> by_cases h2 : z < i.last_z_index <;>
        simp [h1, h2, lt_max_iff]
    rw [hx, Bool.or_assoc]

lemma lookupMap_insertMap_ne {α : Type} {i j : Nat} (h : ¬ i = j) :
    ∀ (m : List (Nat × α)) (v : α),
      lookupMap (insertMap m i v) j = lookupMap m j
  | [], v => by simp [insertMap, lookupMap, h]
  | (k, w) :: t, v => by
    by_cases hk : k = i
    · simp [insertMap, hk, lookupMap, h]
    · simp only [insertMap, hk, if_neg, lookupMap]
      by_cases hj : k = j
      · simp [hj]
      · simp [hj, lookupMap_insertMap_ne h t v]

lemma lookupMap_insertMap_self {α : Type} :
    ∀ (m : List (Nat × α)) (i : Nat) (v : α),
      lookupMap (insertMap m i v) i = some v
  | [], i, v => by simp [insertMap, lookupMap]
  | (k, w) :: t, i, v => by
    by_cases hk : k = i <;>
      simp [insertMap, hk, lookupMap, lookupMap_insertMap_self t i v]

lemma overlaps_of_intersection_eq_some {a b c : Rect}
    (h : a.intersection b = some c) : a.overlaps b = true := by
  by_cases hov : a.overlaps b = true
  · exact hov
  · rw [Bool.not_eq_true] at hov
    simp [Rect.intersection, hov] at h

lemma scan_no_entry (m : List (Nat × ElementState)) (g : Rect) (i : Nat) :
    ∀ (elems : List Element) (acc : ScanAcc),
      lookupMap acc.states i = none →
      (∀ e ∈ elems, e.id = i → e.geometry.overlaps g = false) →
      lookupMap (scanElements m g elems acc).states i = none
  | [], acc, hacc, _ => hacc
  | e :: rest, acc, hacc, h => by
    have hrest : ∀ x ∈ rest, x.id = i → x.geometry.overlaps g = false :=
      fun x hx => h x (List.mem_cons_of_mem _ hx)
    cases hint : e.geometry.intersection g with
    | none =>
      rw [scanElements, hint]
      exact scan_no_entry m g i rest acc hacc hrest
    | some clipped =>
      have hne : ¬ e.id = i := by
        intro hid
        have hfalse := h e (List.mem_cons_self _ _) hid
        rw [overlaps_of_intersection_eq_some hint] at hfalse
        exact Bool.noConfusion hfalse
      rw [scanElements, hint]
      dsimp only
      by_cases hva : visibleArea acc.opaque_acc clipped = 0
      · rw [if_pos hva]
        apply scan_no_entry m g i rest _ _ hrest
        by_cases hs : (lookupMap acc.states e.id).isSome
        · simpa [hs] using hacc
        · simpa [hs, lookupMap_insertMap_ne hne] using hacc
      · rw [if_neg hva]
        apply scan_no_entry m g i rest _ _ hrest
        cases hlk : lookupMap acc.states e.id with
        | none => simpa [hlk, lookupMap_insertMap_ne hne] using hacc
        | some st =>
          by_cases hp : st.presentation_state = .skipped <;>
            simpa [hlk, hp, lookupMap_insertMap_ne hne] using hacc

lemma within_of_intersection {a g c : Rect} (h : a.intersection g = some c) :
    c.within g := by
  have hov := overlaps_of_intersection_eq_some h
  rw [Rect.intersection, if_pos hov] at h
  have hc := Option.some.inj h
  subst hc
  rw [overlaps_iff] at hov
  unfold Rect.within
  dsimp only
  omega

lemma within_merge {a b g : Rect} (ha : a.within g) (hb : b.within g) :
    (a.merge b).within g := by
  unfold Rect.within at ha hb ⊢
  unfold Rect.merge
  dsimp only
  omega

lemma within_foldl_merge {g : Rect} :
    ∀ (l : List Rect) (r : Rect), r.within g → (∀ x ∈ l, x.within g) →
      (l.foldl Rect.merge r).within g
  | [], r, hr, _ => hr
  | a :: t, r, hr, hl => by
    rw [List.foldl_cons]
    exact within_foldl_merge t _ (within_merge hr (hl a (by simp)))
      (fun x hx => hl x (by simp [hx]))

lemma mergeStep_within {g : Rect} {acc : List Rect} {r : Rect}
    (hacc : ∀ x ∈ acc, x.within g) (hr : r.within g) :
    ∀ y ∈ mergeStep acc r, y.within g := by
  intro y hy
  unfold mergeStep at hy
  rcases List.mem_append.mp hy with hy | hy
  · exact hacc y (List.mem_of_mem_filter hy)
  · rcases List.mem_singleton.mp hy with rfl
    exact within_foldl_merge _ r hr
      (fun x hx => hacc x (List.mem_of_mem_filter hx))

lemma foldl_mergeStep_within {g : Rect} :
    ∀ (l acc : List Rect), (∀ x ∈ acc, x.within g) → (∀ x ∈ l, x.within g) →
      ∀ y ∈ l.foldl mergeStep acc, y.within g
  | [], acc, hacc, _ => hacc
  | r :: t, acc, hacc, hl => by
    rw [List.foldl_cons]
    exact foldl_mergeStep_within t _
      (mergeStep_within hacc (hl r (by simp)))
      (fun x hx => hl x (by simp [hx]))

lemma canonicalize_within {g : Rect} {l : List Rect} :
    ∀ y ∈ canonicalize g l, y.within g := by
  unfold canonicalize mergeFold
  apply foldl_mergeStep_within _ [] (by simp)
  intro x hx
  rcases List.mem_filterMap.mp hx with ⟨a, _, ha⟩
  exact within_of_intersection ha

lemma containsPt_iff {r : Rect} {p : Pt} :
    r.containsPt p = true ↔
      (r.loc.x ≤ p.x ∧ p.x < r.loc.x + r.size.w ∧
       r.loc.y ≤ p.y ∧ p.y < r.loc.y + r.size.h) := by
  simp [Rect.containsPt, and_assoc]

lemma overlaps_of_common_pt {a g : Rect} {p : Pt}
    (ha : a.containsPt p = true) (hg : g.containsPt p = true) :
    a.overlaps g = true := by
  rw [containsPt_iff] at ha hg
  rw [overlaps_iff]
  omega

lemma isEmptyRect_false_of_containsPt {r : Rect} {p : Pt}
    (h : r.containsPt p = true) : r.isEmptyRect = false := by
  rw [containsPt_iff] at h
  simp [Rect.isEmptyRect]
  omega

lemma intersection_containsPt {a g : Rect} {p : Pt}
    (ha : a.containsPt p = true) (hg : g.containsPt p = true) :
    ∃ c, a.intersection g = some c ∧ c.containsPt p = true := by
  have hov := overlaps_of_common_pt ha hg
  refine ⟨_, by rw [Rect.intersection, if_pos hov], ?_⟩
  rw [containsPt_iff] at ha hg ⊢
  dsimp only
  omega

lemma mem_dedupConsec : ∀ (l : List Rect) (r : Rect), r ∈ l → r ∈ dedupConsec l
  | [], r, h => by simp at h
  | [a], r, h => by simpa [dedupConsec] using h
  | a :: b :: t, r, h => by
    rw [dedupConsec]
    by_cases hab : a = b
    · rw [if_pos hab]
      rcases List.mem_cons.mp h with h1 | h1
      · exact mem_dedupConsec (b :: t) r (by simp [h1, hab])
      · exact mem_dedupConsec (b :: t) r h1
    · rw [if_neg hab]
      rcases List.mem_cons.mp h with h1 | h1
      · simp [h1]
      · exact List.mem_cons_of_mem _ (mem_dedupConsec (b :: t) r h1)

lemma containsPt_merge_left {a b : Rect} {p : Pt}
    (h : a.containsPt p = true) : (a.merge b).containsPt p = true := by
  rw [containsPt_iff] at h ⊢
  unfold Rect.merge
  dsimp only
  omega

lemma containsPt_merge_right {a b : Rect} {p : Pt}
    (h : b.containsPt p = true) : (a.merge b).containsPt p = true := by
  rw [containsPt_iff] at h ⊢
  unfold Rect.merge
  dsimp only
  omega

lemma containsPt_foldl_merge_init {p : Pt} :
    ∀ (l : List Rect) (r : Rect), r.containsPt p = true →
      (l.foldl Rect.merge r).containsPt p = true
  | [], r, hr => hr
  | a :: t, r, hr => by
    rw [List.foldl_cons]
    exact containsPt_foldl_merge_init t _ (containsPt_merge_left hr)

lemma containsPt_foldl_merge_mem {p : Pt} :
    ∀ (l : List Rect) (r o : Rect), o ∈ l → o.containsPt p = true →
      (l.foldl Rect.merge r).containsPt p = true
  | [], _, o, ho, _ => by simp at ho
  | a :: t, r, o, ho, hp => by
    rw [List.foldl_cons]
    rcases List.mem_cons.mp ho with h1 | h1
    · exact containsPt_foldl_merge_init t _ (containsPt_merge_right (h1 ▸ hp))
    · exact containsPt_foldl_merge_mem t _ o h1 hp

lemma coveredB_iff {l : List Rect} {p : Pt} :
    coveredB l p = true ↔ ∃ r ∈ l, r.containsPt p = true := by
  simp [coveredB, List.any_eq_true]

lemma coveredB_mergeStep_left {acc : List Rect} {r : Rect} {p : Pt}
    (h : coveredB acc p = true) : coveredB (mergeStep acc r) p = true := by
  rcases coveredB_iff.mp h with ⟨o, ho, hp⟩
  rw [coveredB_iff]
  unfold mergeStep
  by_cases hov : o.overlaps r = true
  · exact ⟨_, List.mem_append_right _ (List.mem_singleton_self _),
      containsPt_foldl_merge_mem _ r o (List.mem_filter.mpr ⟨ho, by simp [hov]⟩) hp⟩
  · exact ⟨o, List.mem_append_left _
      (List.mem_filter.mpr ⟨ho, by simp [hov]⟩), hp⟩

lemma coveredB_mergeStep_right {acc : List Rect} {r : Rect} {p : Pt}
    (h : r.containsPt p = true) : coveredB (mergeStep acc r) p = true := by
  rw [coveredB_iff]
  exact ⟨_, List.mem_append_right _ (List.mem_singleton_self _),
    containsPt_foldl_merge_init _ r h⟩

lemma coveredB_foldl_mergeStep :
    ∀ (l acc : List Rect) (p : Pt),
      (coveredB acc p = true ∨ coveredB l p = true) →
      coveredB (l.foldl mergeStep acc) p = true
  | [], acc, p, h => by
    rcases h with h | h
    · exact h
    · simp [coveredB] at h
  | r :: t, acc, p, h => by
    rw [List.foldl_cons]
    rcases h with h | h
    · exact coveredB_foldl_mergeStep t _ p (Or.inl (coveredB_mergeStep_left h))
    · rcases coveredB_iff.mp h with ⟨o, ho, hp⟩
      rcases List.mem_cons.mp ho with h1 | h1
      · exact coveredB_foldl_mergeStep t _ p
          (Or.inl (coveredB_mergeStep_right (h1 ▸ hp)))
      · exact coveredB_foldl_mergeStep t _ p
          (Or.inr (coveredB_iff.mpr ⟨o, h1, hp⟩))

lemma coveredB_canonicalize {g : Rect} {l : List Rect} {p : Pt}
    (hl : coveredB l p = true) (hg : g.containsPt p = true) :
    coveredB (canonicalize g l) p = true := by
  rcases coveredB_iff.mp hl with ⟨r, hrl, hrp⟩
  unfold canonicalize mergeFold
  apply coveredB_foldl_mergeStep _ [] p
  refine Or.inr ?_
  rcases intersection_containsPt hrp hg with ⟨c, hc, hcp⟩
  rw [coveredB_iff]
  refine ⟨c, List.mem_filterMap.mpr ⟨r, ?_, hc⟩, hcp⟩
  refine List.mem_filter.mpr ⟨List.mem_filter.mpr ⟨mem_dedupConsec l r hrl, ?_⟩, ?_⟩
  · simpa using overlaps_of_common_pt hrp hg
  · simp [isEmptyRect_false_of_containsPt hrp]

lemma listJoinMap_eq_nil {α β : Type} {f : α → List β} :
    ∀ (l : List α), (∀ x ∈ l, f x = []) → listJoinMap f l = []
  | [], _ => rfl
  | a :: t, h => by
    rw [listJoinMap, h a (List.mem_cons_self _ _),
      listJoinMap_eq_nil t (fun x hx => h x (List.mem_cons_of_mem _ hx)),
      List.nil_append]

lemma intersection_pos {a b c : Rect} (h : a.intersection b = some c)
    (ha1 : 0 < a.size.w) (ha2 : 0 < a.size.h)
    (hb1 : 0 < b.size.w) (hb2 : 0 < b.size.h) :
    0 < c.size.w ∧ 0 < c.size.h := by
  have hov := overlaps_of_intersection_eq_some h
  rw [Rect.intersection, if_pos hov] at h
  have hc := Option.some.inj h
  subst hc
  rw [overlaps_iff] at hov
  dsimp only
  omega

lemma visibleArea_opaqueFree {opq : List (Nat × List Rect)} {clipped : Rect}
    (h : ∀ q ∈ opq, q.2 = []) :
    visibleArea opq clipped = clipped.size.w * clipped.size.h := by
  unfold visibleArea
  rw [listJoinMap_eq_nil _ h]
  simp [subtractAll]

lemma scan_rendered (m : List (Nat × ElementState)) (g : Rect)
    (hw : 0 < g.size.w) (hh : 0 < g.size.h) :
    ∀ (elems : List Element) (acc : ScanAcc) (i : Nat),
      (∀ e ∈ elems, e.opaque_regions = []) →
      (∀ e ∈ elems, 0 < e.geometry.size.w ∧ 0 < e.geometry.size.h) →
      (∀ q ∈ acc.opaque_acc, q.2 = []) →
      ((∃ st, lookupMap acc.states i = some st ∧
          st.presentation_state = .rendered) ∨
        (∃ e ∈ elems, e.id = i ∧ e.geometry.overlaps g = true)) →
      ∃ st, lookupMap (scanElements m g elems acc).states i = some st ∧
        st.presentation_state = .rendered
  | [], acc, i, _, _, _, hd => by
    rcases hd with hd | hd
    · exact hd
    · simp at hd
  | e :: rest, acc, i, hop, hpos, hacc, hd => by
    have hope : e.opaque_regions = [] := hop e (List.mem_cons_self _ _)
    have hoprest : ∀ x ∈ rest, x.opaque_regions = [] :=
      fun x hx => hop x (List.mem_cons_of_mem _ hx)
    have hposrest : ∀ x ∈ rest, 0 < x.geometry.size.w ∧ 0 < x.geometry.size.h :=
      fun x hx => hpos x (List.mem_cons_of_mem _ hx)
    cases hint : e.geometry.intersection g with
    | none =>
      rw [scanElements, hint]
      apply scan_rendered m g hw hh rest acc i hoprest hposrest hacc
      rcases hd with hd | hd
      · exact Or.inl hd
      · rcases hd with ⟨e', he', hid, hov⟩
        rcases List.mem_cons.mp he' with h1 | h1
        · subst h1
          rw [Rect.intersection, if_pos hov] at hint
          exact Option.noConfusion hint
        · exact Or.inr ⟨e', h1, hid, hov⟩
    | some clipped =>
      have hva : ¬ visibleArea acc.opaque_acc clipped = 0 := by
        rw [visibleArea_opaqueFree hacc]
        rcases intersection_pos hint (hpos e (List.mem_cons_self _ _)).1
          (hpos e (List.mem_cons_self _ _)).2 hw hh with ⟨h1, h2⟩
        have := mul_pos h1 h2
        omega
      rw [scanElements, hint]
      dsimp only
      rw [if_neg hva]
      apply scan_rendered m g hw hh rest _ i hoprest hposrest
      · intro q hq
        rcases List.mem_append.mp hq with hq | hq
        · exact hacc q hq
        · rcases List.mem_singleton.mp hq with rfl
          simp [elementClippedOpaque, hope, translateClip]
      · dsimp only
        by_cases hei : e.id = i
        · subst hei
          refine Or.inl ?_
          cases hlk : lookupMap acc.states e.id with
          | none =>
            simp only [hlk]
            exact ⟨_, lookupMap_insertMap_self _ _ _, rfl⟩
          | some st =>
            simp only [hlk]
            by_cases hp : st.presentation_state = .skipped
            · rw [if_pos hp]
              exact ⟨_, lookupMap_insertMap_self _ _ _, rfl⟩
            · rw [if_neg hp]
              refine ⟨_, lookupMap_insertMap_self _ _ _, ?_⟩
              cases hps : st.presentation_state with
              | skipped => exact absurd hps hp
              | rendered => rfl
        · rcases hd with hd | hd
          · rcases hd with ⟨st, hst, hps⟩
            refine Or.inl ⟨st, ?_, hps⟩
            cases hlk : lookupMap acc.states e.id with
            | none =>
              simp only [hlk]
              rw [lookupMap_insertMap_ne hei, hst]
            | some st' =>
              simp only [hlk]
              by_cases hp : st'.presentation_state = .skipped <;>
                simp [hp, lookupMap_insertMap_ne hei, hst]
          · rcases hd with ⟨e', he', hid, hov⟩
            rcases List.mem_cons.mp he' with h1 | h1
            · exact absurd (h1 ▸ hid) hei
            · exact Or.inr ⟨e', h1, hid, hov⟩

/-- C2 (counterexample): a call that merges to empty damage returns
`none` and leaves the tracker state COMPLETELY unchanged — here the state
still records id 1 even though the frame consisted of `elemB2` alone, so
`elements` was not rebuilt from this frame's render elements and nothing
was pushed onto `old_damage`. -/
theorem c2_counterexample :
    (damage_output stateC2 1 [elemB2] outG).1 = none ∧
    (damage_output stateC2 1 [elemB2] outG).2.2 = stateC2 ∧
    rebuildElements (sceneScan stateC2.elements outG [elemB2]).render_elements ≠
      stateC2.elements := by
  decide

/-- C2 (amended): the tracker state is updated (size set, elements
rebuilt in scene order from this frame's render elements, new damage
pushed onto the front of `old_damage`) only when the final merged damage
is non-empty; when `none` is returned, `size` and `elements` are left
unchanged and nothing is pushed — `old_damage` has merely been truncated
to `age` entries when the age branch was taken. -/
theorem c2_amended (s : RendererState) (age : Nat) (elems : List Element) (g : Rect) :
    ((damage_output s age elems g).1 = none →
      (damage_output s age elems g).2.2 =
        ⟨s.size, s.elements, analysisOldAfter s age⟩) ∧
    (∀ l, (damage_output s age elems g).1 = some l →
      (damage_output s age elems g).2.2 =
        ⟨some g.size, rebuildElements (sceneScan s.elements g elems).render_elements,
         analysis_new_damage s elems g :: analysisOldAfter s age⟩) := by
  unfold damage_output damage_output_internal
  by_cases h : finalDamage s age elems g = [] <;> simp [h]

/-- C2 witness: the amended statement applied at the concrete
`none`-returning call. -/
theorem c2_witness :
    (damage_output stateC2 1 [elemB2] outG).2.2 =
      ⟨stateC2.size, stateC2.elements, analysisOldAfter stateC2 1⟩ :=
  (c2_amended stateC2 1 [elemB2] outG).1 (by decide)

/-- C7 (confirmed): whenever `render_output` returns a `Rendering`
backend error — from opening the frame, clearing, or any element draw —
the tracker's `RendererState` is reset to its default empty value. -/
theorem c7_theorem (b : Backend) (s : RendererState) (age : Nat)
    (elems : List Element) (g : Rect)
    (h : (render_output b s age elems g).1 = .renderingError) :
    (render_output b s age elems g).2.1 = RendererState.default := by
  unfold render_output at h ⊢
  by_cases h0 : (damage_output_internal s age elems g).damage = []
  · simp [h0] at h
  · by_cases h1 : b.frame_ok = true
    · by_cases h2 : b.clear_ok (clearDamageOf (damage_output_internal s age elems g)) = true
      · by_cases h3 : (paintResult b (damage_output_internal s age elems g)).1 = true
        · simp [h0, h1, h2, h3] at h
        · simp [h0, h1, h2, h3]
      · simp [h0, h1, h2]
    · simp [h0, h1]

/-- C7 witness: a backend whose frame cannot be opened errors on the
first frame and the state is reset. -/
theorem c7_witness :
    (render_output failingBackend RendererState.default 0 [] outG).1 =
      .renderingError ∧
    (render_output failingBackend RendererState.default 0 [] outG).2.1 =
      RendererState.default :=
  ⟨by decide, c7_theorem failingBackend RendererState.default 0 [] outG (by decide)⟩

/-- C9 (confirmed): whenever `render_output` reports `none` damage, the
backend was not touched at all — no frame opened, no clear, no draw. -/
theorem c9_theorem (b : Backend) (s : RendererState) (age : Nat)
    (elems : List Element) (g : Rect)
    (h : (render_output b s age elems g).1.isNoDamage = true) :
    (render_output b s age elems g).2.2 = [] := by
  unfold render_output at h ⊢
  by_cases h0 : (damage_output_internal s age elems g).damage = []
  · simp [h0]
  · by_cases h1 : b.frame_ok = true
    · by_cases h2 : b.clear_ok (clearDamageOf (damage_output_internal s age elems g)) = true
      · by_cases h3 : (paintResult b (damage_output_internal s age elems g)).1 = true
        · simp [h0, h1, h2, h3, RenderResult.isNoDamage] at h
        · simp [h0, h1, h2, h3, RenderResult.isNoDamage] at h
      · simp [h0, h1, h2, RenderResult.isNoDamage] at h
    · simp [h0, h1, RenderResult.isNoDamage] at h

/-- C9 witness: a `none`-damage call on a fully accepting backend makes
no backend calls. -/
theorem c9_witness :
    (render_output okBackend stateC2 1 [elemB2] outG).1.isNoDamage = true ∧
    (render_output okBackend stateC2 1 [elemB2] outG).2.2 = [] :=
  ⟨by decide, c9_theorem okBackend stateC2 1 [elemB2] outG (by decide)⟩

/-- C10 (confirmed): with `age = 0` every call pushes exactly one entry
onto the front of `old_damage` and removes none, so the history ring
grows by one per frame without bound. -/
theorem c10_theorem (s : RendererState) (elems : List Element) (g : Rect)
    (hw : 0 < g.size.w) (hh : 0 < g.size.h) :
    (damage_output s 0 elems g).2.2.old_damage =
      analysis_new_damage s elems g :: s.old_damage := by
  have hcond : ¬(0 < 0 ∧ 0 ≤ s.old_damage.length) := by omega
  simp [damage_output, damage_output_internal, finalDamage, analysisFinalInput,
    analysisOldAfter, hcond, canonicalize_single hw hh]

lemma damage_output_none_iff (s : RendererState) (age : Nat)
    (elems : List Element) (g : Rect) :
    (damage_output s age elems g).1 = none ↔ finalDamage s age elems g = [] := by
  unfold damage_output damage_output_internal
  by_cases h : finalDamage s age elems g = [] <;> simp [h]

lemma damage_output_state (s : RendererState) (age : Nat)
    (elems : List Element) (g : Rect) :
    (damage_output s age elems g).2.2 =
      if finalDamage s age elems g = [] then
        ⟨s.size, s.elements, analysisOldAfter s age⟩
      else
        ⟨some g.size,
         rebuildElements (sceneScan s.elements g elems).render_elements,
         analysis_new_damage s elems g :: analysisOldAfter s age⟩ := by
  unfold damage_output damage_output_internal
  by_cases h : finalDamage s age elems g = [] <;> simp [h]

lemma scan_indep (g : Rect) :
    ∀ (elems : List Element) (m m' : List (Nat × ElementState)) (acc acc' : ScanAcc),
      acc.render_elements = acc'.render_elements →
      acc.opaque_acc = acc'.opaque_acc →
      acc.states = acc'.states →
      acc.z = acc'.z →
      (scanElements m g elems acc).render_elements =
          (scanElements m' g elems acc').render_elements ∧
        (scanElements m g elems acc).opaque_acc =
          (scanElements m' g elems acc').opaque_acc ∧
        (scanElements m g elems acc).states =
          (scanElements m' g elems acc').states ∧
        (scanElements m g elems acc).z = (scanElements m' g elems acc').z
  | [], m, m', acc, acc', h1, h2, h3, h4 => ⟨h1, h2, h3, h4⟩
  | e :: rest, m, m', acc, acc', h1, h2, h3, h4 => by
    cases hint : e.geometry.intersection g with
    | none =>
      simp only [scanElements, hint]
      exact scan_indep g rest m m' acc acc' h1 h2 h3 h4
    | some clipped =>
      simp only [scanElements, hint]
      rw [← h1, ← h2, ← h3, ← h4]
      by_cases hva : visibleArea acc.opaque_acc clipped = 0
      · rw [if_pos hva, if_pos hva]
        exact scan_indep g rest m m' _ _ rfl rfl rfl rfl
      · rw [if_neg hva, if_neg hva]
        exact scan_indep g rest m m' _ _ rfl rfl rfl rfl

lemma scan_shape (m : List (Nat × ElementState)) (g : Rect) :
    ∀ (elems : List Element) (acc : ScanAcc),
      ∃ t, (scanElements m g elems acc).render_elements =
          acc.render_elements ++ t ∧
        (scanElements m g elems acc).damage =
          acc.damage ++ listJoinMap (elementClippedDamage m g) t ∧
        ∀ x ∈ t, x ∈ elems
  | [], acc =>
    ⟨[], by rw [scanElements]; simp, by rw [scanElements, listJoinMap]; simp,
      by simp⟩
  | e :: rest, acc => by
    cases hint : e.geometry.intersection g with
    | none =>
      rcases scan_shape m g rest acc with ⟨t, ht1, ht2, ht3⟩
      exact ⟨t, by simpa [scanElements, hint] using ht1,
        by simpa [scanElements, hint] using ht2,
        fun x hx => List.mem_cons_of_mem _ (ht3 x hx)⟩
    | some clipped =>
      by_cases hva : visibleArea acc.opaque_acc clipped = 0
      · rcases scan_shape m g rest
          { acc with
            states :=
              if (lookupMap acc.states e.id).isSome then acc.states
              else insertMap acc.states e.id RenderElementState.skippedState }
          with ⟨t, ht1, ht2, ht3⟩
        refine ⟨t, ?_, ?_, fun x hx => List.mem_cons_of_mem _ (ht3 x hx)⟩
        · rw [scanElements, hint]
          dsimp only
          rw [if_pos hva]
          exact ht1
        · rw [scanElements, hint]
          dsimp only
          rw [if_pos hva]
          exact ht2
      · rcases scan_shape m g rest
          { damage := acc.damage ++ elementClippedDamage m g e
            render_elements := acc.render_elements ++ [e]
            opaque_acc := acc.opaque_acc ++ [(acc.z, elementClippedOpaque g e)]
            states :=
              match lookupMap acc.states e.id with
              | some st =>
                if st.presentation_state = .skipped then
                  insertMap acc.states e.id
                    (RenderElementState.renderedState
                      (visibleArea acc.opaque_acc clipped))
                else
                  insertMap acc.states e.id
                    ⟨st.presentation_state,
                     st.visible_area + visibleArea acc.opaque_acc clipped⟩
              | none =>
                insertMap acc.states e.id
                  (RenderElementState.renderedState
                    (visibleArea acc.opaque_acc clipped))
            z := acc.z + 1 } with ⟨t, ht1, ht2, ht3⟩
        refine ⟨e :: t, ?_, ?_, ?_⟩
        · rw [scanElements, hint]
          dsimp only
          rw [if_neg hva]
          rw [ht1]
          simp
        · rw [scanElements, hint]
          dsimp only
          rw [if_neg hva]
          rw [ht2]
          simp [listJoinMap]
        · intro x hx
          rcases List.mem_cons.mp hx with h1 | h1
          · simp [h1]
          · exact List.mem_cons_of_mem _ (ht3 x h1)

lemma mem_insertMap {α : Type} :
    ∀ (m : List (Nat × α)) (i : Nat) (v : α) (pr : Nat × α),
      pr ∈ insertMap m i v → pr ∈ m ∨ pr.1 = i
  | [], i, v, pr, h => by
    simp [insertMap] at h
    simp [h]
  | (k, w) :: t, i, v, pr, h => by
    by_cases hk : k = i
    · rw [insertMap, if_pos hk] at h
      rcases List.mem_cons.mp h with h1 | h1
      · simp [h1]
      · exact Or.inl (List.mem_cons_of_mem _ h1)
    · rw [insertMap, if_neg hk] at h
      rcases List.mem_cons.mp h with h1 | h1
      · simp [h1]
      · rcases mem_insertMap t i v pr h1 with h2 | h2
        · exact Or.inl (List.mem_cons_of_mem _ h2)
        · exact Or.inr h2

lemma rebuildAux_mem_pair :
    ∀ (res : List Element) (map : List (Nat × ElementState)) (z0 : Nat)
      (pr : Nat × ElementState),
      pr ∈ rebuildAux map z0 res → pr ∈ map ∨ ∃ e ∈ res, e.id = pr.1
  | [], map, z0, pr, h => Or.inl h
  | e :: rest, map, z0, pr, h => by
    rw [rebuildAux] at h
    rcases rebuildAux_mem_pair rest _ (z0 + 1) pr h with h1 | h1
    · cases hlk : lookupMap map e.id with
      | some st =>
        simp only [hlk] at h1
        rcases mem_insertMap _ _ _ _ h1 with h2 | h2
        · exact Or.inl h2
        · exact Or.inr ⟨e, List.mem_cons_self _ _, h2.symm⟩
      | none =>
        simp only [hlk] at h1
        rcases mem_insertMap _ _ _ _ h1 with h2 | h2
        · exact Or.inl h2
        · exact Or.inr ⟨e, List.mem_cons_self _ _, h2.symm⟩
    · rcases h1 with ⟨e', he', hid⟩
      exact Or.inr ⟨e', List.mem_cons_of_mem _ he', hid⟩

lemma rebuildAux_preserves :
    ∀ (res : List Element) (map : List (Nat × ElementState)) (z0 : Nat)
      (i : Nat) (st : ElementState) (inst : ElementInstanceState),
      lookupMap map i = some st → inst ∈ st.last_instances →
      ∃ st', lookupMap (rebuildAux map z0 res) i = some st' ∧
        inst ∈ st'.last_instances ∧ st'.last_commit = st.last_commit
  | [], map, z0, i, st, inst, hlk, hin => ⟨st, hlk, hin, rfl⟩
  | e :: rest, map, z0, i, st, inst, hlk, hin => by
    rw [rebuildAux]
    by_cases hei : e.id = i
    · subst hei
      simp only [hlk]
      exact rebuildAux_preserves rest _ (z0 + 1) e.id
        ⟨st.last_commit, st.last_instances ++ [⟨e.geometry, z0⟩]⟩ inst
        (lookupMap_insertMap_self map e.id _)
        (List.mem_append_left _ hin)
    · cases hlk2 : lookupMap map e.id with
      | some st0 =>
        simp only [hlk2]
        exact rebuildAux_preserves rest _ (z0 + 1) i st inst
          (by rw [lookupMap_insertMap_ne hei, hlk]) hin
      | none =>
        simp only [hlk2]
        exact rebuildAux_preserves rest _ (z0 + 1) i st inst
          (by rw [lookupMap_insertMap_ne hei, hlk]) hin

lemma rebuildAux_mem :
    ∀ (res : List Element) (map : List (Nat × ElementState)) (z0 : Nat)
      (j : Nat) (hj : j < res.length),
      ∃ st, lookupMap (rebuildAux map z0 res) (res.get ⟨j, hj⟩).id = some st ∧
        (⟨(res.get ⟨j, hj⟩).geometry, z0 + j⟩ : ElementInstanceState) ∈
          st.last_instances
  | [], _, _, j, hj => absurd hj (by simp)
  | e :: rest, map, z0, 0, hj => by
    rw [rebuildAux]
    simp only [List.get]
    rw [(rfl : z0 + 0 = z0)]
    cases hlk : lookupMap map e.id with
    | some st =>
      simp only [hlk]
      rcases rebuildAux_preserves rest _ (z0 + 1) e.id
          ⟨st.last_commit, st.last_instances ++ [⟨e.geometry, z0⟩]⟩
          ⟨e.geometry, z0⟩ (lookupMap_insertMap_self map e.id _)
          (List.mem_append_right _ (List.mem_singleton_self _))
          with ⟨st', h1, h2, _⟩
      exact ⟨st', h1, h2⟩
    | none =>
      simp only [hlk]
      rcases rebuildAux_preserves rest _ (z0 + 1) e.id
          ⟨e.current_commit, [⟨e.geometry, z0⟩]⟩
          ⟨e.geometry, z0⟩ (lookupMap_insertMap_self map e.id _)
          (List.mem_singleton_self _)
          with ⟨st', h1, h2, _⟩
      exact ⟨st', h1, h2⟩
  | e :: rest, map, z0, j + 1, hj => by
    rw [rebuildAux]
    have hlen : j < rest.length := by
      have := hj
      simp at this
      omega
    have hz : z0 + (j + 1) = (z0 + 1) + j := by omega
    simp only [List.get]
    rw [hz]
    cases hlk : lookupMap map e.id with
    | some st =>
      simp only [hlk]
      exact rebuildAux_mem rest _ (z0 + 1) j hlen
    | none =>
      simp only [hlk]
      exact rebuildAux_mem rest _ (z0 + 1) j hlen

lemma rebuildAux_commit :
    ∀ (res : List Element) (map : List (Nat × ElementState)) (z0 : Nat)
      (i : Nat) (st : ElementState),
      lookupMap (rebuildAux map z0 res) i = some st →
      (∃ st0, lookupMap map i = some st0 ∧
          st.last_commit = st0.last_commit) ∨
      (∃ e ∈ res, e.id = i ∧ st.last_commit = e.current_commit)
  | [], map, z0, i, st, h => Or.inl ⟨st, h, rfl⟩
  | e :: rest, map, z0, i, st, h => by
    rw [rebuildAux] at h
    by_cases hei : e.id = i
    · cases hlk : lookupMap map e.id with
      | some st0 =>
        simp only [hlk] at h
        rcases rebuildAux_commit rest _ (z0 + 1) i st h with h1 | h1
        · rcases h1 with ⟨st1, hst1, hc⟩
          rw [← hei, lookupMap_insertMap_self] at hst1
          have := Option.some.inj hst1
          subst this
          exact Or.inl ⟨st0, by rw [← hei, hlk], by simpa using hc⟩
        · rcases h1 with ⟨e', he', hid, hc⟩
          exact Or.inr ⟨e', List.mem_cons_of_mem _ he', hid, hc⟩
      | none =>
        simp only [hlk] at h
        rcases rebuildAux_commit rest _ (z0 + 1) i st h with h1 | h1
        · rcases h1 with ⟨st1, hst1, hc⟩
          rw [← hei, lookupMap_insertMap_self] at hst1
          have := Option.some.inj hst1
          subst this
          exact Or.inr ⟨e, List.mem_cons_self _ _, hei, by simpa using hc⟩
        · rcases h1 with ⟨e', he', hid, hc⟩
          exact Or.inr ⟨e', List.mem_cons_of_mem _ he', hid, hc⟩
    · cases hlk : lookupMap map e.id with
      | some st0 =>
        simp only [hlk] at h
        rcases rebuildAux_commit rest _ (z0 + 1) i st h with h1 | h1
        · rcases h1 with ⟨st1, hst1, hc⟩
          rw [lookupMap_insertMap_ne hei] at hst1
          exact Or.inl ⟨st1, hst1, hc⟩
        · rcases h1 with ⟨e', he', hid, hc⟩
          exact Or.inr ⟨e', List.mem_cons_of_mem _ he', hid, hc⟩
      | none =>
        simp only [hlk] at h
        rcases rebuildAux_commit rest _ (z0 + 1) i st h with h1 | h1
        · rcases h1 with ⟨st1, hst1, hc⟩
          rw [lookupMap_insertMap_ne hei] at hst1
          exact Or.inl ⟨st1, hst1, hc⟩
        · rcases h1 with ⟨e', he', hid, hc⟩
          exact Or.inr ⟨e', List.mem_cons_of_mem _ he', hid, hc⟩

lemma movedAux_eq_nil (m : List (Nat × ElementState)) (opq : List (Nat × List Rect)) :
    ∀ (res : List Element) (z0 : Nat),
      (∀ (j : Nat) (hj : j < res.length), ∃ st,
        lookupMap m (res.get ⟨j, hj⟩).id = some st ∧
        instanceMatches st (res.get ⟨j, hj⟩).geometry (z0 + j) = true) →
      movedAux m opq z0 res = []
  | [], _, _ => rfl
  | e :: rest, z0, h => by
    rcases h 0 (by simp) with ⟨st, hlk, hm⟩
    simp only [List.get] at hlk hm
    rw [Nat.add_zero] at hm
    rw [movedAux]
    simp only [hlk]
    rw [if_pos hm]
    rw [List.nil_append]
    apply movedAux_eq_nil m opq rest (z0 + 1)
    intro j hj
    rcases h (j + 1) (by simpa using Nat.succ_lt_succ hj) with ⟨st', hlk', hm'⟩
    simp only [List.get] at hlk' hm'
    have hz : z0 + (j + 1) = (z0 + 1) + j := by omega
    rw [hz] at hm'
    exact ⟨st', hlk', hm'⟩

lemma elementsGone_rebuild (res : List Element) (opq : List (Nat × List Rect)) :
    elementsGone (rebuildElements res) res opq = [] := by
  unfold elementsGone
  have hf : (rebuildElements res).filter
      (fun pr => !(res.any (fun e => e.id = pr.1))) = [] := by
    apply List.filter_eq_nil_iff.mpr
    intro pr hpr
    rcases rebuildAux_mem_pair res [] 0 pr hpr with h | h
    · exact absurd h (List.not_mem_nil pr)
    · rcases h with ⟨e, he, hid⟩
      intro hcontra
      have hany : res.any (fun e => e.id = pr.1) = true :=
        List.any_eq_true.mpr ⟨e, he, decide_eq_true hid⟩
      rw [hany] at hcontra
      simp at hcontra
  rw [hf]
  rfl

/-- C1 (counterexample): from a freshly constructed tracker, two
consecutive `damage_output` calls with `age = 1` and the same (empty,
hence trivially unchanged) element list both report damage; the second
call returns `some [outG]`, not `None`, because phase F re-adds the most
recent stored frame's damage, which after the first call is the whole
output. -/
theorem c1_counterexample :
    (damage_output (damage_output RendererState.default 1 [] outG).2.2
        1 [] outG).1 = some [outG] := by
  decide

/-- C1 (amended): with `age = 1`, if the element list is unchanged
relative to the tracker's recorded state — phases A-D of the first call
contribute no damage — and every element reports empty `damage_since`
for the commit recorded from any element of the list with its id, then
the SECOND of two consecutive `compute_damage` calls returns `None`
damage.  (As stated, with the second call's baseline being the first
call's state, the claim fails from a fresh tracker; see the
counterexample.) -/
theorem c1_amended (s : RendererState) (elems : List Element) (g : Rect)
    (hnd : analysis_new_damage s elems g = [])
    (hds : ∀ e ∈ elems, ∀ e' ∈ elems, e'.id = e.id →
        e.damage_since (some e'.current_commit) = []) :
    (damage_output (damage_output s 1 elems g).2.2 1 elems g).1 = none := by
  rw [damage_output_none_iff]
  rw [damage_output_state s 1 elems g]
  by_cases hf : finalDamage s 1 elems g = []
  · rw [if_pos hf]
    unfold finalDamage analysisFinalInput at hf ⊢
    dsimp only
    by_cases hlen : 1 ≤ s.old_damage.length
    · have hc1 : 0 < 1 ∧ 1 ≤ s.old_damage.length := ⟨Nat.one_pos, hlen⟩
      rw [if_pos hc1] at hf
      have hold : analysisOldAfter s 1 = s.old_damage.take 1 := by
        unfold analysisOldAfter
        rw [if_pos hc1]
      rw [hold]
      have hlen2 : (s.old_damage.take 1).length = 1 := by
        rw [List.length_take]
        omega
      have hc2 : 0 < 1 ∧ 1 ≤ (s.old_damage.take 1).length := by
        omega
      rw [if_pos hc2]
      have hnd_eq : analysis_new_damage
          ⟨s.size, s.elements, s.old_damage.take 1⟩ elems g =
          analysis_new_damage s elems g := rfl
      rw [hnd_eq, List.take_take, min_self]
      exact hf
    · have hc1 : ¬(0 < 1 ∧ 1 ≤ s.old_damage.length) := fun hx => hlen hx.2
      rw [if_neg hc1] at hf
      have hold : analysisOldAfter s 1 = s.old_damage := by
        unfold analysisOldAfter
        rw [if_neg hc1]
      rw [hold]
      rw [if_neg hc1]
      exact hf
  · rw [if_neg hf]
    rw [hnd]
    unfold finalDamage analysisFinalInput
    dsimp only
    have hc : 0 < 1 ∧ 1 ≤ (([] : List Rect) :: analysisOldAfter s 1).length :=
      ⟨Nat.one_pos, by simp⟩
    rw [if_pos hc]
    -- the second call's phases A-D contribute nothing
    have hscan0 := scan_shape s.elements g elems ⟨[], [], [], [], 0⟩
    rcases hscan0 with ⟨t0, ht01, ht02, ht03⟩
    have hres_elems : ∀ x ∈ (sceneScan s.elements g elems).render_elements,
        x ∈ elems := by
      intro x hx
      apply ht03
      have : (sceneScan s.elements g elems).render_elements = t0 := by
        rw [sceneScan, ht01]
        simp
      rwa [this] at hx
    have hnd2 : analysis_new_damage
        ⟨some g.size,
         rebuildElements (sceneScan s.elements g elems).render_elements,
         ([] : List Rect) :: analysisOldAfter s 1⟩ elems g = [] := by
      unfold analysis_new_damage
      dsimp only
      rw [if_pos rfl]
      have hind := scan_indep g elems
        (rebuildElements (sceneScan s.elements g elems).render_elements)
        s.elements ⟨[], [], [], [], 0⟩ ⟨[], [], [], [], 0⟩ rfl rfl rfl rfl
      rcases hind with ⟨hire, hiop, _, _⟩
      rcases scan_shape
          (rebuildElements (sceneScan s.elements g elems).render_elements) g
          elems ⟨[], [], [], [], 0⟩ with ⟨t, ht1, ht2, ht3⟩
      have hteq : t = (sceneScan s.elements g elems).render_elements := by
        have h1 : (sceneScan
            (rebuildElements (sceneScan s.elements g elems).render_elements) g
            elems).render_elements = t := by
          rw [sceneScan, ht1]
          simp
        rw [← h1]
        exact hire
      -- phase A damage of the second call is empty
      have hdam : (sceneScan
          (rebuildElements (sceneScan s.elements g elems).render_elements) g
          elems).damage = [] := by
        rw [sceneScan, ht2]
        rw [List.nil_append]
        apply listJoinMap_eq_nil
        intro x hx
        rw [hteq] at hx
        rcases List.mem_iff_get.mp hx with ⟨⟨j, hj⟩, hget⟩
        rcases rebuildAux_mem (sceneScan s.elements g elems).render_elements
            [] 0 j hj with ⟨st, hlk, _⟩
        rw [hget] at hlk
        rcases rebuildAux_commit (sceneScan s.elements g elems).render_elements
            [] 0 x.id st hlk with hcom | hcom
        · rcases hcom with ⟨st0, hst0, _⟩
          exact absurd hst0 (by rw [lookupMap]; simp)
        · rcases hcom with ⟨e', he', hid, hc'⟩
          unfold elementClippedDamage
          have hlk' : lookupMap (rebuildElements
              (sceneScan s.elements g elems).render_elements) x.id =
              some st := hlk
          rw [hlk']
          dsimp only [Option.map]
          rw [hc', hds x (hres_elems x hx) e' (hres_elems e' he') hid]
          rfl
      rw [hdam]
      have hre2 : (sceneScan
          (rebuildElements (sceneScan s.elements g elems).render_elements) g
          elems).render_elements =
          (sceneScan s.elements g elems).render_elements := hire
      rw [hre2, elementsGone_rebuild]
      rw [List.nil_append, List.nil_append]
      unfold movedDamage
      apply movedAux_eq_nil
      intro j hj
      rcases rebuildAux_mem (sceneScan s.elements g elems).render_elements
          [] 0 j hj with ⟨st, hlk, hin⟩
      refine ⟨st, hlk, ?_⟩
      unfold instanceMatches
      apply List.any_eq_true.mpr
      refine ⟨_, hin, ?_⟩
      simp
    rw [hnd2]
    rfl

/-- C1 witness: from a state recording the output size, no elements and
one stored whole-output frame, the first call returns `some [outG1]` and
the second returns `None`. -/
theorem c1_witness :
    analysis_new_damage stateC8b [] outG1 = [] ∧
    (damage_output (damage_output stateC8b 1 [] outG1).2.2 1 [] outG1).1 =
      none :=
  ⟨by decide, c1_amended stateC8b [] outG1 (by decide) (by decide)⟩

/-- C3 (counterexample): an element whose geometry has empty intersection
with the output (and whose id has no other entry) produces NO report
entry at all — the loop `continue`s without recording `Skipped`. -/
theorem c3_counterexample :
    (⟨⟨1000, 1000⟩, ⟨5, 5⟩⟩ : Rect).intersection outG = none ∧
    lookupMap (damage_output RendererState.default 0 [outsideElem] outG).2.1 3 =
      none := by
  decide

/-- C4 (counterexample): the single-pass merge can return overlapping
rectangles — merging the row with the column produces the whole 5x5
output, which overlaps the already-kept lone square. -/
theorem c4_counterexample :
    (damage_output stateC4 1 [elemC4] outG5).1 =
      some [rectSmall, ⟨⟨0, 0⟩, ⟨5, 5⟩⟩] ∧
    rectSmall.overlaps ⟨⟨0, 0⟩, ⟨5, 5⟩⟩ = true := by
  decide

/-- C3 (amended): an element whose geometry does not overlap the output
is skipped silently; if no element of the frame with a given id overlaps
the output, the report contains NO entry for that id (Skipped entries
are recorded only for overlapping, fully occluded elements). -/
theorem c3_amended (s : RendererState) (age : Nat) (elems : List Element)
    (g : Rect) (i : Nat)
    (h : ∀ e ∈ elems, e.id = i → e.geometry.overlaps g = false) :
    lookupMap (damage_output s age elems g).2.1 i = none := by
  have hscan := scan_no_entry s.elements g i elems ⟨[], [], [], [], 0⟩ rfl h
  unfold damage_output damage_output_internal
  by_cases hf : finalDamage s age elems g = [] <;>
    simpa [hf, sceneScan] using hscan

/-- C3 witness: the amended statement at the out-of-output element. -/
theorem c3_witness :
    lookupMap (damage_output RendererState.default 0 [outsideElem] outG).2.1 3 =
      none :=
  c3_amended RendererState.default 0 [outsideElem] outG 3 (by decide)

/-- C4 (amended): every rectangle of a `some` damage result lies within
`output_geo`; the rectangles are NOT guaranteed pairwise non-overlapping,
because the single-pass merge does not re-test an enlarged rectangle
against rectangles it had already set aside. -/
theorem c4_amended (s : RendererState) (age : Nat) (elems : List Element)
    (g : Rect) (l : List Rect)
    (h : (damage_output s age elems g).1 = some l) :
    ∀ r ∈ l, r.within g := by
  have hl : l = finalDamage s age elems g := by
    unfold damage_output damage_output_internal at h
    by_cases hf : finalDamage s age elems g = [] <;> simp [hf] at h
    exact h.symm
  subst hl
  unfold finalDamage
  exact fun r hr => canonicalize_within r hr

/-- C4 witness: the amended statement at the merge counterexample's
concrete call, instantiated at the first returned rectangle. -/
theorem c4_witness :
    rectSmall.within outG5 :=
  c4_amended stateC4 1 [elemC4] outG5 [rectSmall, ⟨⟨0, 0⟩, ⟨5, 5⟩⟩]
    (by decide) rectSmall (by decide)

/-- C6 (amended): the gone-element damage uses one shared opaque-region
filter per id: a region is subtracted (from EVERY instance's geometry)
exactly when its z-index is in front of the largest recorded z-index
among the id's instances. -/
theorem c6_amended (m : List (Nat × ElementState)) (res : List Element)
    (opq : List (Nat × List Rect)) :
    elementsGone m res opq = elementsGoneShared m res opq := by
  unfold elementsGone elementsGoneShared
  apply listJoinMap_congr
  intro pr _
  apply congrArg
  apply congrArg
  apply List.filter_congr
  intro q _
  exact any_lt_maxLastZ pr.2.last_instances q.1

/-- C5 (counterexample): on the first frame after construction, an
element that overlaps the output but is fully occluded by the opaque
regions of an element in front of it is reported `Skipped`, not
`Rendered`. -/
theorem c5_counterexample :
    backElem.geometry.overlaps outG = true ∧
    lookupMap (damage_output RendererState.default 0 [frontElem, backElem] outG).2.1
        1 = some RenderElementState.skippedState := by
  decide

/-- C5 (amended): the first frame after construction (or after an error
reset) returns damage equal to `[output_geo]`, and the report holds a
`Rendered` state for every element with a non-degenerate geometry that
overlaps the output, provided no element declares opaque regions (an
overlapping element fully occluded by opaque regions in front of it is
reported `Skipped` instead). -/
theorem c5_amended (age : Nat) (elems : List Element) (g : Rect)
    (hw : 0 < g.size.w) (hh : 0 < g.size.h)
    (hop : ∀ e ∈ elems, e.opaque_regions = [])
    (hpos : ∀ e ∈ elems, 0 < e.geometry.size.w ∧ 0 < e.geometry.size.h) :
    (damage_output RendererState.default age elems g).1 = some [g] ∧
    ∀ e ∈ elems, e.geometry.overlaps g = true →
      ∃ st,
        lookupMap (damage_output RendererState.default age elems g).2.1 e.id =
          some st ∧ st.presentation_state = .rendered := by
  have hcond : ¬(0 < age ∧ age ≤ (RendererState.default).old_damage.length) := by
    simp [RendererState.default]
    omega
  have hfin : finalDamage RendererState.default age elems g = [g] := by
    unfold finalDamage analysisFinalInput
    rw [if_neg hcond]
    exact canonicalize_single hw hh
  have hne : ¬ finalDamage RendererState.default age elems g = [] := by
    simp [hfin]
  constructor
  · unfold damage_output damage_output_internal
    simp [hne, hfin]
  · intro e he hov
    have hsc := scan_rendered (RendererState.default).elements g hw hh elems
      ⟨[], [], [], [], 0⟩ e.id hop hpos (by simp) (Or.inr ⟨e, he, rfl, hov⟩)
    unfold damage_output damage_output_internal
    simpa [hne, sceneScan] using hsc

/-- C5 witness: the amended statement at the first frame with the single
opaque-free element `backElem`. -/
theorem c5_witness :
    (0 : Int) < outG.size.w ∧ (0 : Int) < outG.size.h ∧
    (∀ e ∈ [backElem], e.opaque_regions = ([] : List Rect)) ∧
    (∀ e ∈ [backElem], 0 < e.geometry.size.w ∧ 0 < e.geometry.size.h) ∧
    (damage_output RendererState.default 0 [backElem] outG).1 = some [outG] ∧
    (∀ e ∈ [backElem], e.geometry.overlaps outG = true →
      ∃ st,
        lookupMap (damage_output RendererState.default 0 [backElem] outG).2.1
            e.id = some st ∧ st.presentation_state = .rendered) :=
  ⟨by decide, by decide, by decide, by decide,
    (c5_amended 0 [backElem] outG (by decide) (by decide) (by decide)
      (by decide)).1,
    (c5_amended 0 [backElem] outG (by decide) (by decide) (by decide)
      (by decide)).2⟩

/-- C6 (counterexample): the gone-element damage is NOT computed with a
per-instance opaque-region filter.  The region at z-index 2 is in front
of the instance at z-index 5 only, yet the code subtracts it from BOTH
instance geometries, erasing the z-index-0 instance's contribution that
the per-instance reading would keep. -/
theorem c6_counterexample :
    elementsGone goneMap [] goneOpq = [goneRect2] ∧
    elementsGoneSpec goneMap [] goneOpq = [geoB2, goneRect2] ∧
    elementsGone goneMap [] goneOpq ≠ elementsGoneSpec goneMap [] goneOpq := by
  decide

/-- C8 (counterexample): a stored damage rectangle sticking out of the
output is clipped away by phase G, so the pixel (-3, 0) covered by the
stored history of the single prior frame is not covered by the damage
returned with `age = 1`. -/
theorem c8_counterexample :
    coveredB (joinAll (stateC8.old_damage.take 1)) ⟨-3, 0⟩ = true ∧
    coveredB ((damage_output stateC8 1 [] outG1).1.getD []) ⟨-3, 0⟩ = false := by
  decide

/-- C8 (amended): with `age = k >= 1` and at least `k` stored frames,
the returned damage covers every pixel of the union of the last `k`
frames' stored damage THAT LIES WITHIN `output_geo`; stored damage
outside the output rectangle is clipped away by phase G. -/
theorem c8_amended (s : RendererState) (age : Nat) (elems : List Element)
    (g : Rect) (p : Pt)
    (h1 : 0 < age) (h2 : age ≤ s.old_damage.length)
    (h3 : coveredB (joinAll (s.old_damage.take age)) p = true)
    (h4 : g.containsPt p = true) :
    coveredB ((damage_output s age elems g).1.getD []) p = true := by
  have hinput : coveredB (analysisFinalInput s age elems g) p = true := by
    unfold analysisFinalInput
    rw [if_pos ⟨h1, h2⟩]
    rcases coveredB_iff.mp h3 with ⟨r, hr, hp⟩
    exact coveredB_iff.mpr ⟨r, List.mem_append_right _ hr, hp⟩
  have hfin : coveredB (finalDamage s age elems g) p = true :=
    coveredB_canonicalize hinput h4
  have hne : ¬ finalDamage s age elems g = [] := by
    intro he
    rw [he] at hfin
    simp [coveredB] at hfin
  unfold damage_output damage_output_internal
  simpa [hne] using hfin

/-- C8 witness: the amended statement at a state storing one whole-output
frame, checked at pixel (3, 3). -/
theorem c8_witness :
    0 < 1 ∧ 1 ≤ stateC8b.old_damage.length ∧
    coveredB (joinAll (stateC8b.old_damage.take 1)) ⟨3, 3⟩ = true ∧
    outG1.containsPt ⟨3, 3⟩ = true ∧
    coveredB ((damage_output stateC8b 1 [] outG1).1.getD []) ⟨3, 3⟩ = true :=
  ⟨by decide, by decide, by decide, by decide,
    c8_amended stateC8b 1 [] outG1 ⟨3, 3⟩ (by decide) (by decide) (by decide)
      (by decide)⟩

/-- C10 witness: the theorem at a fresh tracker with an 800x600 output. -/
theorem c10_witness :
    (0 : Int) < outG.size.w ∧ (0 : Int) < outG.size.h ∧
    (damage_output RendererState.default 0 [] outG).2.2.old_damage =
      analysis_new_damage RendererState.default [] outG ::
        RendererState.default.old_damage :=
  ⟨by decide, by decide,
    c10_theorem RendererState.default [] outG (by decide) (by decide)⟩

end DamageTrack
